import Mathlib

/-
Verification of the PRISM post-processing pipeline (src/postprocess.py) against
its design specification.

The embedding models the pure data flow of the four source files.  External
library calls are modelled at their documented interfaces:

* raster values are idealized as exact rationals (ℚ); numpy's NaN sentinel is
  modelled as `none` in `Option ℚ`;
* `rasterio.mask.mask` is an oracle parameter `MaskFn` returning either the
  list of pixel values of the cropped window for a geometry, or a failure;
* `gdf.to_crs` reprojects every geometry (empty / null geometries are
  preserved, as geopandas does) and returns a new frame;
* pandas frames are modelled by `GDF`; Python object identity and in-place
  column assignment are modelled by an explicit store (`Store`) for the
  frame-effect claim;
* `DataFrame.stack` (which drops NaN cells), `pd.concat` and `unstack` are
  modelled over association lists keyed by (FIPS, GEOID, variable);
* the filesystem is a list of checkpoint names (plus a completeness flag that
  records whether a write ran to completion) and a list of raw archive files;
  `rglob "*X"` on file names is suffix matching;
* `pandas.DataFrame.to_parquet` writes directly to its destination path: the
  file becomes visible at the final name when the write starts, and an
  interruption leaves it there incomplete (there is no temporary file and no
  rename step).
-/

/-- Geometry of one boundary record: Python `None`, an empty geometry, or a
nonempty (multi)polygon identified by an opaque tag (reprojection renames the
tag; emptiness and nullness are preserved, as `to_crs` does). -/
inductive Geom
  | none_
  | empty
  | poly (tag : Nat)
  deriving DecidableEq, Inhabited

/-- Raster metadata relevant to the pipeline: its CRS and the optional
declared no-data sentinel (`profile["crs"]`, `profile.get "nodata"`). -/
structure Profile where
  crs : Nat
  nodata : Option ℚ
  deriving DecidableEq, Inhabited

/-- One raster file inside an archive: its bands (each a list of pixel
values) and its profile. -/
structure TifFile where
  bands : List (List ℚ)
  profile : Profile
  deriving DecidableEq, Inhabited

/-- One member of a zip archive: its name, and its parse as a raster when it
is opened as one (`none` when rasterio would fail to parse it). -/
structure ZipEntry where
  name : String
  raster : Option TifFile
  deriving DecidableEq, Inhabited

/-- Failures of `read_prism_zip`: the explicit
`ValueError("No .tif found inside ...")` raised by the source when the
archive holds no `.tif` member (the spec's `ArchiveFormatError`), versus any
failure of rasterio itself while parsing a found member. -/
inductive ReadErr
  | archiveFormat
  | rasterParse
  deriving DecidableEq

/-- Suffix test on strings via their character lists; models Python's
`str.endswith` and the trailing-wildcard `rglob`/`fnmatch` patterns
(`*X` on a file name). -/
def endsWithCl (s suffix : String) : Bool :=
  suffix.data.isSuffixOf s.data

/-- Embedding of `read_prism_zip` (src/postprocess.py:17-46): filter the
member list for names ending in ".tif"; raise if none; open the first one and
read band 1 of it. -/
def read_prism_zip (entries : List ZipEntry) : Except ReadErr (List ℚ × Profile) :=
  match entries.filter (fun e => endsWithCl e.name ".tif") with
  | [] => .error .archiveFormat
  | t :: _ =>
    match t.raster with
    | none => .error .rasterParse
    | some tf =>
      match tf.bands with
      | [] => .error .rasterParse
      | b :: _ => .ok (b, tf.profile)

/-- Python's `str.zfill`: pad with leading zeros to the given width, keeping a
leading sign character in front of the padding. -/
def zfill (s : String) (w : Nat) : String :=
  if w ≤ s.data.length then s
  else
    match s.data with
    | [] => String.mk (List.replicate w '0')
    | c :: rest =>
      if c = '+' ∨ c = '-' then
        String.mk (c :: (List.replicate (w - s.data.length) '0' ++ rest))
      else
        String.mk (List.replicate (w - s.data.length) '0' ++ s.data)

/-- A shapefile attribute cell: the sub-codes may be stored as strings or as
numbers; `astype(str)` stringifies them. -/
inductive Cell
  | str (s : String)
  | intc (n : Int)
  deriving DecidableEq, Inhabited

/-- Python `str()` on a cell, as applied by `astype(str)`. -/
def pyStr : Cell → String
  | .str s => s
  | .intc n => toString n

/-- Python `str.lower` (ASCII case folding). -/
def pyLower (s : String) : String :=
  String.mk (s.data.map Char.toLower)

/-- One row of the trimmed boundary frame produced by `read_shapefile_zip`.
The `fips` and `geoid` fields carry values only when the corresponding column
exists; column existence is recorded on the frame (`hasFips`, `hasGeoid`). -/
structure GRow where
  fips : String
  geoid : String
  geom : Geom
  deriving DecidableEq, Inhabited

/-- A (Geo)DataFrame: its CRS, which of the FIPS / GEOID columns exist, its
rows, and its numeric value columns (name ↦ cells; a cell is `none` where the
frame holds NaN). -/
structure GDF where
  crs : Nat
  hasFips : Bool
  hasGeoid : Bool
  rows : List GRow
  vals : List (String × List (Option ℚ))
  deriving DecidableEq, Inhabited

/-- One raw record of the boundary shapefile before trimming. -/
structure GeoRow where
  statefp : Cell
  countyfp : Cell
  geoid : Cell
  geom : Geom
  deriving DecidableEq, Inhabited

/-- The boundary shapefile as read by geopandas: which sub-code / GEOID
columns its schema has, and its records. -/
structure GeoFrame where
  crs : Nat
  hasState : Bool
  hasCounty : Bool
  hasGeoid : Bool
  rows : List GeoRow
  deriving DecidableEq, Inhabited

/-- Embedding of `read_shapefile_zip` (src/postprocess.py:49-73): if both
STATEFP and COUNTYFP columns exist, derive FIPS as
`zfill 2 ++ zfill 3` of their stringified values; keep only the
FIPS / GEOID / geometry columns.  When a column does not exist
(`hasFips = false` / `hasGeoid = false`) the corresponding row field is
meaningless and never observed. -/
def read_shapefile_zip (g : GeoFrame) : GDF :=
  { crs := g.crs
    hasFips := g.hasState && g.hasCounty
    hasGeoid := g.hasGeoid
    rows := g.rows.map (fun r =>
      { fips := zfill (pyStr r.statefp) 2 ++ zfill (pyStr r.countyfp) 3
        geoid := pyStr r.geoid
        geom := r.geom })
    vals := [] }

/-- Column access by name (missing column gives the empty list; callers
guard on the existence flags first). -/
def getCol (g : GDF) (c : String) : List (Option ℚ) :=
  ((g.vals.find? (fun p => decide (p.1 = c))).map (fun p => p.2)).getD []

/-- Column assignment by name (`frame[c] = vs`): a keyed update.  Column
order within `vals` is not observable in this embedding. -/
def setCol (g : GDF) (c : String) (vs : List (Option ℚ)) : GDF :=
  { g with vals := (c, vs) :: g.vals.filter (fun p => decide (¬ p.1 = c)) }

/-- `gdf.copy()`: a deep copy has the same content. -/
def copyFrame (g : GDF) : GDF := g

/-- Reprojection of a single geometry to another CRS: nonempty polygons get
new coordinates (a new tag), `None` and empty geometries are preserved. -/
def reprojGeom (rp : Nat → Nat) : Geom → Geom
  | .none_ => .none_
  | .empty => .empty
  | .poly t => .poly (rp t)

/-- `gdf.to_crs(c)`: returns a new frame in CRS `c` with every geometry
reprojected; all other columns are unchanged. -/
def to_crs (g : GDF) (c : Nat) (rp : Nat → Nat) : GDF :=
  { g with
    crs := c
    rows := g.rows.map (fun r => { r with geom := reprojGeom rp r.geom }) }

/-- The `rasterio.mask.mask` oracle: for a raster (data plus profile) and one
geometry, either the pixel values of the cropped window (`out_image[0]`
flattened) or a failure (e.g. geometry outside the raster extent). -/
abbrev MaskFn := List ℚ → Profile → Geom → Except Unit (List ℚ)

/-- `masked[masked != nodata]` when the profile declares a no-data sentinel;
the identity otherwise. -/
def excludeNodata (nodata : Option ℚ) (ps : List ℚ) : List ℚ :=
  match nodata with
  | some nd => ps.filter (fun x => decide (¬ x = nd))
  | none => ps

/-- `masked.mean()`: the unweighted arithmetic mean. -/
def listMean (ps : List ℚ) : ℚ := ps.sum / (ps.length : ℚ)

/-- The per-geometry body of the loop in `zonal_average`
(src/postprocess.py:106-122): `None`/empty geometries give NaN without
masking; a masking failure is caught and gives NaN; otherwise pixels equal to
the declared no-data sentinel are excluded, an empty remainder gives NaN, and
otherwise the mean of the remainder is taken. -/
def regionValue (mO : MaskFn) (data : List ℚ) (profile : Profile) (g : Geom) : Option ℚ :=
  if g = Geom.none_ ∨ g = Geom.empty then none
  else
    match mO data profile g with
    | .error _ => none
    | .ok pixels =>
      let masked := excludeNodata profile.nodata pixels
      if masked.length = 0 then none
      else some (listMean masked)

/-- Embedding of `zonal_average` (src/postprocess.py:76-126): reproject the
frame once if its CRS differs from the raster's, compute one value per
geometry in row order, and return a copy of the (possibly reprojected) frame
with the value column added. -/
def zonal_average (mO : MaskFn) (rp : Nat → Nat) (data : List ℚ) (profile : Profile)
    (gdf : GDF) (value_col : String) : GDF :=
  let gdf1 := if gdf.crs ≠ profile.crs then to_crs gdf profile.crs rp else gdf
  let results := gdf1.rows.map (fun r => regionValue mO data profile r.geom)
  setCol (copyFrame gdf1) value_col results

/-- The geometry that row `i` of the input frame has at masking time inside
one `zonal_average` call: the row's geometry, reprojected when the call
reprojects the frame. -/
def effectiveGeom (rp : Nat → Nat) (profile : Profile) (gdf : GDF) (i : Nat) : Geom :=
  let g := ((gdf.rows[i]?).map (fun r => r.geom)).getD Geom.none_
  if gdf.crs ≠ profile.crs then reprojGeom rp g else g

/-- A heap of Python frame objects, for tracking aliasing and in-place
mutation: a reference is an index into the store. -/
abbrev Store := List GDF

/-- `zonal_average` at the level of Python object references
(src/postprocess.py:96-126 operation by operation): `to_crs` allocates a new
frame and rebinds the local name, `gdf.copy()` allocates a new frame, and the
column assignment `gdf_out[value_col] = results` mutates the copy in place.
Returns the store after the call and the reference to the returned frame. -/
def zonal_average_store (mO : MaskFn) (rp : Nat → Nat) (data : List ℚ) (profile : Profile)
    (st : Store) (ref : Nat) (value_col : String) : Store × Nat :=
  let g0 := st.getD ref default
  let p1 : Store × Nat :=
    if g0.crs ≠ profile.crs then (st ++ [to_crs g0 profile.crs rp], st.length)
    else (st, ref)
  let g1 := p1.1.getD p1.2 default
  let results := g1.rows.map (fun r => regionValue mO data profile r.geom)
  let st2 := p1.1 ++ [copyFrame g1]
  let rOut := p1.1.length
  let st3 := st2.set rOut (setCol (st2.getD rOut default) value_col results)
  (st3, rOut)

/-- The character pattern `prism_` of the regex `prism_(.*)_us`. -/
def prismPat : List Char := ['p', 'r', 'i', 's', 'm', '_']

/-- The character pattern `_us` of the regex `prism_(.*)_us`. -/
def usPat : List Char := ['_', 'u', 's']

/-- Whether `pat` occurs in `cs` starting at position `i`. -/
def sAt (cs pat : List Char) (i : Nat) : Bool :=
  pat.isPrefixOf (cs.drop i)

/-- All lengths `k` the greedy group `(.*)` can take from position `i + 6`:
`_us` must follow, and `.` does not match a newline. -/
def usCandidates (tail : List Char) : List Nat :=
  (List.range (tail.length + 1)).filter
    (fun k => sAt tail usPat k && !((tail.take k).contains '\n'))

/-- A match attempt of `prism_(.*)_us` anchored at position `i`: requires
`prism_` at `i`, then takes the longest `(.*)` (Python's greedy semantics
prefers the last viable `_us`). -/
def matchAt (cs : List Char) (i : Nat) : Option String :=
  if sAt cs prismPat i then
    match (usCandidates (cs.drop (i + 6))).getLast? with
    | some k => some (String.mk ((cs.drop (i + 6)).take k))
    | none => none
  else none

/-- Embedding of `re.search(r"prism_(.*)_us", fname).group(1)` as used at
src/postprocess.py:145-148: Python's `re.search` scans start positions left
to right and takes the greedy match at the first viable one.  `none` models
`search` returning `None`, on which `m.group(1)` raises (the spec's
`FilenamePatternError`). -/
def reSearchPrism (s : String) : Option String :=
  ((List.range (s.data.length + 1)).filterMap (fun i => matchAt s.data i)).head?

/-- Claim-side description of "the filename contains a `prism_<variable>_us`
segment": there is a position carrying `prism_` followed (after the group,
which may not span a newline) by `_us`. -/
def hasPrismSegment (s : String) : Prop :=
  ∃ i k, sAt s.data prismPat i = true ∧ sAt (s.data.drop (i + 6)) usPat k = true ∧
    ((s.data.drop (i + 6)).take k).contains '\n' = false

/-- One entry of a stacked per-variable series: (FIPS, GEOID, variable) ↦
value. -/
abbrev SEntry := (String × String × String) × ℚ

/-- `DataFrame.stack` over the value column after
`set_index(["FIPS", "GEOID"])`: NaN cells are dropped (pandas' default
`dropna=True`), present cells become (FIPS, GEOID, variable) ↦ value. -/
def stackPairs (dp : String) : List (GRow × Option ℚ) → List SEntry
  | [] => []
  | (_, none) :: rest => stackPairs dp rest
  | (r, some x) :: rest => ((r.fips, r.geoid, dp), x) :: stackPairs dp rest

/-- The stacked series produced from a zonal-output frame for one variable
(`gdf_out.set_index(["FIPS","GEOID"]).stack()`,
src/postprocess.py:150-154). -/
def seriesOfFrame (g : GDF) (dp : String) : List SEntry :=
  stackPairs dp (g.rows.zip (getCol g dp))

/-- `pd.concat` of stacked series: concatenation. -/
def concatSeries (ss : List (List SEntry)) : List SEntry :=
  ss.flatten

/-- First-occurrence deduplication with an accumulator of already-seen keys
(the content of Python's `set`, in first-encounter order; `unstack` only
needs the set of keys). -/
def pyUniqAux {α : Type} [DecidableEq α] : List α → List α → List α
  | _, [] => []
  | seen, a :: rest =>
    if a ∈ seen then pyUniqAux seen rest
    else a :: pyUniqAux (a :: seen) rest

/-- The distinct elements of a list, first occurrences kept. -/
def pyUniq {α : Type} [DecidableEq α] (l : List α) : List α :=
  pyUniqAux [] l

/-- The (FIPS, GEOID) region key of a stacked entry. -/
def entryRegion (e : SEntry) : String × String :=
  (e.1.1, e.1.2.1)

/-- The row index of `unstack()`: the distinct region keys appearing in the
concatenated series. -/
def unstackKeys (es : List SEntry) : List (String × String) :=
  pyUniq (es.map entryRegion)

/-- One cell of the `unstack()` result: the value the series holds at
(region key, variable), or NaN (`none`) when the series has no such entry.
The spec's invariant that region codes are unique within the boundary
collection makes the entry unique when present; pandas raises on duplicate
index entries, which this lookup does not model. -/
def unstackCell (es : List SEntry) (k : String × String) (dp : String) : Option ℚ :=
  (es.find? (fun e => decide (e.1 = (k.1, k.2, dp)))).map (fun e => e.2)

/-- Failures inside one date's unit of work: `m.group(1)` on a failed regex
search (AttributeError; the spec's `FilenamePatternError`), a
`read_prism_zip` failure, a missing FIPS/GEOID column on selection
(KeyError), `pd.concat` on an empty list (ValueError), and an interruption
of the checkpoint write itself. -/
inductive PErr
  | attrError
  | readErr (e : ReadErr)
  | keyError
  | emptyConcat
  | crash
  deriving DecidableEq

/-- The per-date checkpoint content: the concatenated per-variable series
(the wide table is read off it by `unstackKeys` / `unstackCell`) plus the
attached date column. -/
structure DateRecord where
  entries : List SEntry
  date : String
  deriving DecidableEq

/-- Outcome of `process_prism_date`: the skip return (Python `return` after
the already-processed message) or a completed record. -/
inductive DateResult
  | skipped
  | done (recd : DateRecord)
  deriving DecidableEq

/-- A file in the clean-output directory: its name, and whether the write
that produced it ran to completion (`false` = a partially written file,
indistinguishable from a complete one by an existence probe). -/
structure FileEntry where
  name : String
  complete : Bool
  deriving DecidableEq, Inhabited

/-- A raw archive file: its name and its zip contents. -/
structure RawFile where
  name : String
  archive : List ZipEntry
  deriving DecidableEq, Inhabited

/-- The durable storage the pipeline touches: the clean checkpoint directory
(`Dirs.clean`) and the raw archive corpus (`Dirs.output / "prism_raw"`).
Only file names are consulted by the idempotency probe. -/
structure FS where
  clean : List FileEntry
  raw : List RawFile
  deriving DecidableEq, Inhabited

/-- Embedding of `process_prism_file` (src/postprocess.py:129-154): resolve
the variable token from the filename (a failed search raises), read the
archive's raster, run the zonal aggregation against the shared boundary
frame, select the FIPS / GEOID / variable columns (raising if FIPS or GEOID
does not exist), and stack.  The second component counts raster-archive
reads performed (0 or 1). -/
def process_prism_file (mO : MaskFn) (rp : Nat → Nat) (f : RawFile) (shapefile : GDF) :
    Except PErr (List SEntry) × Nat :=
  match reSearchPrism f.name with
  | none => (.error .attrError, 0)
  | some data_point =>
    match read_prism_zip f.archive with
    | .error e => (.error (.readErr e), 1)
    | .ok dp =>
      let gdf_out := zonal_average mO rp dp.1 dp.2 shapefile data_point
      if gdf_out.hasFips && gdf_out.hasGeoid then
        (.ok (seriesOfFrame gdf_out data_point), 1)
      else (.error .keyError, 1)

/-- The sequential per-file loop of `process_prism_date`: stops at the first
failing file; counts raster reads across the processed files. -/
def runFiles (mO : MaskFn) (rp : Nat → Nat) (shapefile : GDF) :
    List RawFile → Except PErr (List (List SEntry)) × Nat
  | [] => (.ok [], 0)
  | f :: rest =>
    match process_prism_file mO rp f shapefile with
    | (.error e, c) => (.error e, c)
    | (.ok s, c) =>
      match runFiles mO rp shapefile rest with
      | (.error e, c2) => (.error e, c + c2)
      | (.ok ss, c2) => (.ok (s :: ss), c + c2)

/-- Embedding of `process_prism_date` (src/postprocess.py:157-177): load the
boundary frame, probe the clean directory for an existing checkpoint by name
(`rglob` on `*{date}.parquet` — an existence probe over names only) and
return the skip result on a hit; otherwise enumerate the date's raw archives,
process them sequentially, concatenate (raising on an empty list, as
`pd.concat([])` does), attach the date, and write the checkpoint directly to
its final path.  `crashDuringWrite` models an interruption of the
`to_parquet` call after the destination file has been created: the file stays
at the final name, incomplete.  Returns (filesystem after, outcome, raster
reads performed). -/
def process_prism_date (mO : MaskFn) (rp : Nat → Nat) (date : String) (shp : GeoFrame)
    (fs : FS) (crashDuringWrite : Bool) : FS × Except PErr DateResult × Nat :=
  let gdf := read_shapefile_zip shp
  let output_fname := "prism_" ++ date ++ ".parquet"
  if fs.clean.any (fun e => endsWithCl e.name (date ++ ".parquet")) then
    (fs, .ok .skipped, 0)
  else
    let files := fs.raw.filter (fun f => endsWithCl f.name (date ++ ".zip"))
    match runFiles mO rp gdf files with
    | (.error e, c) => (fs, .error e, c)
    | (.ok series, c) =>
      match series with
      | [] => (fs, .error .emptyConcat, c)
      | s0 :: srest =>
        let recd : DateRecord := ⟨concatSeries (s0 :: srest), date⟩
        if crashDuringWrite then
          ({ fs with clean := fs.clean ++ [⟨output_fname, false⟩] }, .error .crash, c)
        else
          ({ fs with clean := fs.clean ++ [⟨output_fname, true⟩] }, .ok (.done recd), c)

/-- `pathlib.Path.stem`: the name with its last suffix removed; a dot at
position 0 or at the very end does not count as a suffix separator. -/
def pyStem (s : String) : String :=
  match ((List.range s.data.length).filter (fun i => s.data.getD i ' ' = '.')).getLast? with
  | some i => if 0 < i ∧ i < s.data.length - 1 then String.mk (s.data.take i) else s
  | none => s

/-- Python's `str.split("_")` over a character list. -/
def splitUnderscore : List Char → List (List Char)
  | [] => [[]]
  | c :: rest =>
    let r := splitUnderscore rest
    if c = '_' then [] :: r
    else
      match r with
      | [] => [[c]]
      | h :: t => (c :: h) :: t

/-- `Path(f).stem.split("_")[-1]`: the trailing date token of a raw archive
filename (src/postprocess.py:196). -/
def lastToken (s : String) : String :=
  String.mk ((splitUnderscore (pyStem s).data).getLastD (pyStem s).data)

/-- Python `<` on strings: lexicographic on code points. -/
def charListLt : List Char → List Char → Bool
  | [], [] => false
  | [], _ :: _ => true
  | _ :: _, [] => false
  | a :: as, b :: bs => if a < b then true else if b < a then false else charListLt as bs

/-- Insertion into a sorted list of strings. -/
def insertSorted (s : String) : List String → List String
  | [] => [s]
  | t :: rest => if charListLt s.data t.data then s :: t :: rest else t :: insertSorted s rest

/-- `sorted(set(l))`: the distinct elements in ascending order. -/
def pySortedSet (l : List String) : List String :=
  (pyUniq l).foldr insertSorted []

/-- The failure `main` actually hits in its except handler: `futures` is a
`list`, and `futures[f]` with a Future `f` raises
`TypeError: list indices must be integers or slices, not Future`. -/
inductive PyErr
  | typeError
  deriving DecidableEq

/-- The collection loop of `main` (src/postprocess.py:201-208) over the
worker results, visited in completion order (`order` indexes the futures in
the order `as_completed` yields them).  A successful `f.result()` prints
nothing and continues; on a failed one, the handler's first statement
`d = futures[f]` indexes the futures *list* with a Future and raises
TypeError, which is not caught and aborts `main` — before the failure
message is printed and before any remaining future's outcome is collected. -/
def mainLoop (results : List (Except PErr DateResult)) : List Nat → Except PyErr Unit
  | [] => .ok ()
  | i :: rest =>
    match results.getD i (.ok .skipped) with
    | .ok _ => mainLoop results rest
    | .error _ => .error .typeError

/-- Embedding of `main` (src/postprocess.py:193-208): derive the distinct
trailing date tokens of all raw archives, dispatch one
`process_prism_date` unit per date (each worker process sees the same
starting filesystem; dates produce distinct checkpoint names), and collect
results in completion order. -/
def mainRun (mO : MaskFn) (rp : Nat → Nat) (shp : GeoFrame) (fs : FS)
    (crashDuringWrite : Bool) (order : List Nat) : Except PyErr Unit :=
  let dates := pySortedSet (fs.raw.map (fun f => lastToken f.name))
  let results := dates.map (fun d => (process_prism_date mO rp d shp fs crashDuringWrite).2.1)
  mainLoop results order

/-- Fixture: a mask oracle returning the uniform window [10, 10]. -/
def wMaskTen : MaskFn := fun _ _ _ => .ok [10, 10]

/-- Fixture: a mask oracle returning the window [1, 2, 3]. -/
def wMaskMean : MaskFn := fun _ _ _ => .ok [1, 2, 3]

/-- Fixture: a mask oracle that always fails (geometry outside extent). -/
def wMaskFail : MaskFn := fun _ _ _ => .error ()

/-- Fixture: a one-county boundary shapefile with sub-codes ("6", "37"). -/
def wShp : GeoFrame :=
  ⟨1, true, true, true, [⟨.str "6", .str "37", .str "0500000US06037", .poly 0⟩]⟩

/-- Fixture: a single-band raster, all pixels 10, no no-data sentinel. -/
def wTif : TifFile := ⟨[[10, 10]], ⟨1, none⟩⟩

/-- Fixture: a well-formed raw PRISM archive for a date. -/
def wRawGood (d : String) : RawFile :=
  ⟨"prism_ppt_us_25m_" ++ d ++ ".zip", [⟨"a.tif", some wTif⟩]⟩

/-- Fixture: a corrupted raw archive (no .tif member) for a date. -/
def wRawBad (d : String) : RawFile :=
  ⟨"prism_ppt_us_25m_" ++ d ++ ".zip", [⟨"readme.txt", none⟩]⟩

/-- Fixture: a corpus with one corrupted and one good date. -/
def wFsC1 : FS := ⟨[], [wRawBad "20230101", wRawGood "20230102"]⟩

/-- Fixture: storage already holding the checkpoint of the date. -/
def wFsC4 : FS := ⟨[⟨"prism_20230101.parquet", true⟩], [wRawGood "20230101"]⟩

/-- Fixture: empty clean directory, one good raw archive. -/
def wFsC5 : FS := ⟨[], [wRawGood "20230101"]⟩

/-- Fixture: a raster profile in CRS 1 without a no-data sentinel. -/
def wProfile : Profile := ⟨1, none⟩

/-- Fixture: a trimmed one-county boundary frame in CRS 1. -/
def wGdf : GDF := ⟨1, true, true, [⟨"06037", "g06037", .poly 0⟩], []⟩

/-- Fixture: variable A's zonal output, holding region 06037 with value 3. -/
def wGdfA : GDF := ⟨1, true, true, [⟨"06037", "g06037", .poly 0⟩], [("tmax", [some 3])]⟩

/-- Fixture: variable B's zonal output, region 06037 absent. -/
def wGdfB : GDF := ⟨1, true, true, [⟨"06001", "g06001", .poly 1⟩], [("ppt", [some 5])]⟩

/-- Fixture: a store holding one boundary frame. -/
def wStore : Store := [wGdf]

/-- Fixture: an archive whose first .tif member comes after a non-raster
member. -/
def wZip9 : List ZipEntry := [⟨"readme.txt", none⟩, ⟨"b.tif", some wTif⟩]

theorem getCol_setCol (g : GDF) (c : String) (vs : List (Option ℚ)) :
    getCol (setCol g c vs) c = vs := by
  simp [getCol, setCol]

theorem getCol_zonal (mO : MaskFn) (rp : Nat → Nat) (data : List ℚ) (profile : Profile)
    (gdf : GDF) (c : String) :
    getCol (zonal_average mO rp data profile gdf c) c
      = gdf.rows.map (fun r => regionValue mO data profile
          (if gdf.crs ≠ profile.crs then reprojGeom rp r.geom else r.geom)) := by
  unfold zonal_average
  by_cases h : gdf.crs = profile.crs
  · simp [h, copyFrame, getCol_setCol]
  · simp [h, copyFrame, getCol_setCol, to_crs, List.map_map]

theorem get?_getCol_zonal (mO : MaskFn) (rp : Nat → Nat) (data : List ℚ) (profile : Profile)
    (gdf : GDF) (c : String) (j : Nat) :
    (getCol (zonal_average mO rp data profile gdf c) c)[j]?
      = (gdf.rows[j]?).map
          (fun _ => regionValue mO data profile (effectiveGeom rp profile gdf j)) := by
  rw [getCol_zonal, List.getElem?_map]
  cases h : gdf.rows[j]? with
  | none => rfl
  | some r =>
    simp only [Option.map_some']
    congr 1
    unfold effectiveGeom
    rw [h]
    rfl

theorem rowKeys_zonal (mO : MaskFn) (rp : Nat → Nat) (data : List ℚ) (profile : Profile)
    (gdf : GDF) (c : String) (j : Nat) :
    ((zonal_average mO rp data profile gdf c).rows[j]?).map (fun r => (r.fips, r.geoid))
      = (gdf.rows[j]?).map (fun r => (r.fips, r.geoid)) := by
  unfold zonal_average
  by_cases h : gdf.crs = profile.crs
  · simp [h, copyFrame, setCol]
  · simp only [copyFrame, setCol]
    rw [if_pos h]
    simp only [to_crs, List.getElem?_map]
    cases gdf.rows[j]? <;> rfl

/-- C4: for every date whose checkpoint file already exists in the clean
directory, `process_prism_date` returns the skip outcome, leaves storage
untouched, and performs zero raster-archive reads; the probe consults file
names only. -/
theorem thm_C4_skip (mO : MaskFn) (rp : Nat → Nat) (date : String) (shp : GeoFrame)
    (fs : FS) (crash : Bool)
    (h : fs.clean.any (fun e => endsWithCl e.name (date ++ ".parquet")) = true) :
    process_prism_date mO rp date shp fs crash = (fs, .ok .skipped, 0) := by
  unfold process_prism_date
  simp [h]

theorem wit_C4_skip :
    (wFsC4.clean.any (fun e => endsWithCl e.name ("20230101" ++ ".parquet")) = true) ∧
    process_prism_date wMaskTen id "20230101" wShp wFsC4 false
      = (wFsC4, .ok .skipped, 0) :=
  ⟨by decide, thm_C4_skip wMaskTen id "20230101" wShp wFsC4 false (by decide)⟩

/-- C7: for every boundary record of a frame whose two sub-code columns are
present, the derived region code is the concatenation of the first sub-code
zero-filled to 2 characters and the second zero-filled to 3. -/
theorem thm_C7_region_code (g : GeoFrame) (hs : g.hasState = true) (hc : g.hasCounty = true)
    (i : Nat) (r : GeoRow) (hr : g.rows[i]? = some r) :
    (read_shapefile_zip g).hasFips = true ∧
    ((read_shapefile_zip g).rows[i]?).map (fun x => x.fips)
      = some (zfill (pyStr r.statefp) 2 ++ zfill (pyStr r.countyfp) 3) := by
  constructor
  · simp [read_shapefile_zip, hs, hc]
  · simp [read_shapefile_zip, List.getElem?_map, hr]

theorem wit_C7_region_code :
    ((read_shapefile_zip wShp).rows[0]?).map (fun x => x.fips) = some "06037" := by
  have h := (thm_C7_region_code wShp rfl rfl 0
    ⟨.str "6", .str "37", .str "0500000US06037", .poly 0⟩ rfl).2
  rw [h]
  rfl

/-- C9: `read_prism_zip` fails with the archive-format error exactly when the
archive holds no member named `*.tif`; when the first such member parses as a
raster, the returned data is exactly its first band (and its profile). -/
theorem thm_C9_first_tif (z : List ZipEntry) :
    (read_prism_zip z = .error .archiveFormat ↔
      z.filter (fun e => endsWithCl e.name ".tif") = []) ∧
    (∀ t ts, z.filter (fun e => endsWithCl e.name ".tif") = t :: ts →
      ∀ tf, t.raster = some tf → ∀ b bs, tf.bands = b :: bs →
        read_prism_zip z = .ok (b, tf.profile)) := by
  constructor
  · constructor
    · intro h
      cases hf : z.filter (fun e => endsWithCl e.name ".tif") with
      | nil => rfl
      | cons t ts =>
        rw [read_prism_zip, hf] at h
        cases ht : t.raster with
        | none => simp [ht] at h
        | some tf =>
          cases hb : tf.bands with
          | nil => simp [ht, hb] at h
          | cons b bs => simp [ht, hb] at h
    · intro h
      rw [read_prism_zip, h]
  · intro t ts hf tf htf b bs hb
    rw [read_prism_zip, hf]
    simp [htf, hb]

theorem wit_C9_first_tif :
    read_prism_zip wZip9 = .ok ([10, 10], ⟨1, none⟩) :=
  (thm_C9_first_tif wZip9).2 ⟨"b.tif", some wTif⟩ [] (by decide) wTif rfl [10, 10] [] rfl

/-- C3: inside one `zonal_average` call, a region whose geometry is null or
empty gets the NaN (`missing`) value with no masking attempted; otherwise,
with the window pixels the masking oracle yields for the region's effective
geometry, pixels equal to the declared no-data sentinel are excluded, an
empty remainder gives `missing`, and otherwise the unweighted arithmetic
mean of the remainder. -/
theorem thm_C3_zonal_mean (mO : MaskFn) (rp : Nat → Nat) (data : List ℚ) (profile : Profile)
    (gdf : GDF) (value_col : String) (i : Nat) (r : GRow) (hr : gdf.rows[i]? = some r) :
    ((r.geom = Geom.none_ ∨ r.geom = Geom.empty) →
      (getCol (zonal_average mO rp data profile gdf value_col) value_col)[i]? = some none) ∧
    (∀ t ps, r.geom = Geom.poly t →
      mO data profile (effectiveGeom rp profile gdf i) = Except.ok ps →
      (getCol (zonal_average mO rp data profile gdf value_col) value_col)[i]?
        = some (if excludeNodata profile.nodata ps = [] then none
                else some (listMean (excludeNodata profile.nodata ps)))) := by
  have hg := get?_getCol_zonal mO rp data profile gdf value_col i
  rw [hr] at hg
  simp only [Option.map_some'] at hg
  have hEff : effectiveGeom rp profile gdf i
      = (if gdf.crs ≠ profile.crs then reprojGeom rp r.geom else r.geom) := by
    unfold effectiveGeom
    rw [hr]
    rfl
  constructor
  · intro hcase
    rw [hg]
    have hnone : regionValue mO data profile (effectiveGeom rp profile gdf i) = none := by
      rw [hEff]
      rcases hcase with h1 | h1 <;>
        by_cases hc : gdf.crs ≠ profile.crs <;>
          simp [hc, h1, reprojGeom, regionValue]
    rw [hnone]
  · intro t ps hpoly hok
    have hu : ∃ u, effectiveGeom rp profile gdf i = Geom.poly u := by
      rw [hEff, hpoly]
      by_cases hc : gdf.crs ≠ profile.crs <;> simp [hc, reprojGeom]
    obtain ⟨u, hu⟩ := hu
    rw [hu] at hok
    rw [hg, hu]
    have hval : regionValue mO data profile (Geom.poly u)
        = (if excludeNodata profile.nodata ps = [] then none
           else some (listMean (excludeNodata profile.nodata ps))) := by
      rw [regionValue]
      simp only [hok]
      by_cases hm : excludeNodata profile.nodata ps = [] <;>
        simp [hm, List.length_eq_zero]
    rw [hval]

theorem wit_C3_zonal_mean :
    (getCol (zonal_average wMaskMean id [] wProfile wGdf "tmax") "tmax")[0]?
      = some (some 2) := by
  have h := (thm_C3_zonal_mean wMaskMean id [] wProfile wGdf "tmax" 0
      ⟨"06037", "g06037", Geom.poly 0⟩ rfl).2 0 [1, 2, 3] rfl rfl
  rw [h]
  norm_num [excludeNodata, listMean, wProfile]
  intro hx
  simp at hx

/-- C6: a masking failure for one region is absorbed into the NaN value for
that region alone: the `zonal_average` result still has one value for every
region of the frame, the failing region's value is `missing`, and every
region's value is the one its own geometry determines, independent of the
failure (the aggregation itself never raises). -/
theorem thm_C6_mask_failure (mO : MaskFn) (rp : Nat → Nat) (data : List ℚ) (profile : Profile)
    (gdf : GDF) (value_col : String) (i : Nat)
    (hfail : mO data profile (effectiveGeom rp profile gdf i) = Except.error ()) :
    (getCol (zonal_average mO rp data profile gdf value_col) value_col).length
      = gdf.rows.length ∧
    (i < gdf.rows.length →
      (getCol (zonal_average mO rp data profile gdf value_col) value_col)[i]? = some none) ∧
    (∀ j, (getCol (zonal_average mO rp data profile gdf value_col) value_col)[j]?
      = (gdf.rows[j]?).map
          (fun _ => regionValue mO data profile (effectiveGeom rp profile gdf j))) := by
  refine ⟨?_, ?_, fun j => get?_getCol_zonal mO rp data profile gdf value_col j⟩
  · rw [getCol_zonal, List.length_map]
  · intro hi
    rw [get?_getCol_zonal, List.getElem?_eq_getElem hi]
    have hnone : regionValue mO data profile (effectiveGeom rp profile gdf i) = none := by
      cases hG : effectiveGeom rp profile gdf i with
      | none_ => simp [regionValue]
      | empty => simp [regionValue]
      | poly t =>
        rw [hG] at hfail
        rw [regionValue]
        simp [hfail]
    simp only [Option.map_some', hnone]

theorem wit_C6_mask_failure :
    (getCol (zonal_average wMaskFail id [] wProfile wGdf "tmax") "tmax")[0]? = some none :=
  (thm_C6_mask_failure wMaskFail id [] wProfile wGdf "tmax" 0 rfl).2.1 (by decide)

theorem zas_components (mO : MaskFn) (rp : Nat → Nat) (data : List ℚ) (profile : Profile)
    (st : Store) (ref : Nat) (value_col : String) :
    ∃ pre : Store,
      (zonal_average_store mO rp data profile st ref value_col).2 = pre.length ∧
      (zonal_average_store mO rp data profile st ref value_col).1
        = (pre ++ [zonal_average mO rp data profile (st.getD ref default) value_col]).set
            pre.length (zonal_average mO rp data profile (st.getD ref default) value_col) ∧
      st.length ≤ pre.length ∧
      (∀ j, j < st.length → pre[j]? = st[j]?) := by
  by_cases hc : ((st[ref]?).getD default).crs = profile.crs
  · refine ⟨st, ?_, ?_, Nat.le_refl _, fun j hj => rfl⟩
    · simp [zonal_average_store, hc]
    · simp [zonal_average_store, zonal_average, hc, copyFrame]
  · refine ⟨st ++ [to_crs ((st[ref]?).getD default) profile.crs rp], ?_, ?_, ?_,
      fun j hj => ?_⟩
    · simp [zonal_average_store, hc]
    · simp [zonal_average_store, zonal_average, hc, copyFrame,
        List.getD_eq_getElem?_getD, List.getElem?_concat_length]
      congr 1
      rw [List.getElem_append_right (by simp)]
      simp
    · simp
    · simp [List.getElem?_append, hj]

/-- C10: `zonal_average`, run over the object store, never mutates the
caller's frame: the argument reference holds the same content after the call,
the returned reference is a fresh object whose content is the pure
`zonal_average` result, and that result carries exactly one value per input
region, in the input's row order, with the row keys preserved. -/
theorem thm_C10_no_mutation (mO : MaskFn) (rp : Nat → Nat) (data : List ℚ) (profile : Profile)
    (st : Store) (ref : Nat) (value_col : String) (h : ref < st.length) :
    (zonal_average_store mO rp data profile st ref value_col).1[ref]? = st[ref]? ∧
    (zonal_average_store mO rp data profile st ref value_col).2 ≠ ref ∧
    (zonal_average_store mO rp data profile st ref value_col).1[
        (zonal_average_store mO rp data profile st ref value_col).2]?
      = some (zonal_average mO rp data profile (st.getD ref default) value_col) ∧
    (getCol (zonal_average mO rp data profile (st.getD ref default) value_col) value_col).length
      = (st.getD ref default).rows.length ∧
    (∀ j : Nat, (getCol (zonal_average mO rp data profile (st.getD ref default) value_col)
        value_col)[j]?
      = ((st.getD ref default).rows[j]?).map
          (fun _ => regionValue mO data profile
            (effectiveGeom rp profile (st.getD ref default) j))) ∧
    (∀ j : Nat,
      ((zonal_average mO rp data profile (st.getD ref default) value_col).rows[j]?).map
          (fun r => (r.fips, r.geoid))
      = ((st.getD ref default).rows[j]?).map (fun r => (r.fips, r.geoid))) := by
  obtain ⟨pre, h2, h1, hle, hpre⟩ := zas_components mO rp data profile st ref value_col
  have hne : pre.length ≠ ref := Nat.ne_of_gt (Nat.lt_of_lt_of_le h hle)
  refine ⟨?_, ?_, ?_, ?_, ?_, ?_⟩
  · rw [h1, List.getElem?_set_ne hne, List.getElem?_append,
      if_pos (Nat.lt_of_lt_of_le h hle), hpre ref h]
  · rw [h2]
    exact hne
  · rw [h1, h2]
    exact List.getElem?_set_self (by simp)
  · rw [getCol_zonal, List.length_map]
  · exact fun j => get?_getCol_zonal mO rp data profile (st.getD ref default) value_col j
  · exact fun j => rowKeys_zonal mO rp data profile (st.getD ref default) value_col j

theorem mem_pyUniqAux {α : Type} [DecidableEq α] (l : List α) :
    ∀ (seen : List α) (a : α), a ∈ l → a ∈ seen ∨ a ∈ pyUniqAux seen l := by
  induction l with
  | nil => intro seen a ha; cases ha
  | cons b rest ih =>
    intro seen a ha
    simp only [pyUniqAux]
    rcases List.mem_cons.mp ha with rfl | hrest
    · by_cases hb : a ∈ seen
      · exact Or.inl hb
      · rw [if_neg hb]
        exact Or.inr (List.mem_cons_self _ _)
    · by_cases hb : b ∈ seen
      · rw [if_pos hb]
        exact ih seen a hrest
      · rw [if_neg hb]
        rcases ih (b :: seen) a hrest with hs | hu
        · rcases List.mem_cons.mp hs with rfl | hs2
          · exact Or.inr (List.mem_cons_self _ _)
          · exact Or.inl hs2
        · exact Or.inr (List.mem_cons.mpr (Or.inr hu))

theorem mem_pyUniq {α : Type} [DecidableEq α] {l : List α} {a : α} (h : a ∈ l) :
    a ∈ pyUniq l := by
  rcases mem_pyUniqAux l [] a h with hs | hu
  · cases hs
  · exact hu

theorem stackPairs_find_pos (dp : String) (k : String × String) (v : ℚ)
    (pairs : List (GRow × Option ℚ)) (r0 : GRow)
    (hfind : pairs.find? (fun p => decide ((p.1.fips, p.1.geoid) = k)) = some (r0, some v)) :
    (stackPairs dp pairs).find? (fun e => decide (e.1 = (k.1, k.2, dp)))
      = some ((k.1, k.2, dp), v) := by
  obtain ⟨k1, k2⟩ := k
  induction pairs with
  | nil => simp at hfind
  | cons p rest ih =>
    obtain ⟨q, ov⟩ := p
    by_cases hk : (q.fips, q.geoid) = (k1, k2)
    · rw [List.find?_cons_of_pos _ (by simpa using hk)] at hfind
      have hq : q = r0 ∧ ov = some v := by
        have := Option.some.inj hfind
        exact ⟨congrArg Prod.fst this, congrArg Prod.snd this⟩
      have hk1 : q.fips = k1 := congrArg Prod.fst hk
      have hk2 : q.geoid = k2 := congrArg Prod.snd hk
      rw [hq.2]
      simp only [stackPairs, hk1, hk2]
      exact List.find?_cons_of_pos _ (by simp)
    · rw [List.find?_cons_of_neg _ (by simpa using hk)] at hfind
      cases ov with
      | none => simpa only [stackPairs] using ih hfind
      | some x =>
        simp only [stackPairs]
        rw [List.find?_cons_of_neg _ ?_]
        · exact ih hfind
        · simp only [decide_eq_true_eq]
          intro heq
          exact hk
            (Prod.ext (congrArg (fun z => z.1) heq) (congrArg (fun z => z.2.1) heq))

theorem stackPairs_find_none (dp : String) (k : String × String)
    (pairs : List (GRow × Option ℚ))
    (habs : ∀ p ∈ pairs, (p.1.fips, p.1.geoid) = k → p.2 = none) :
    (stackPairs dp pairs).find? (fun e => decide (e.1 = (k.1, k.2, dp))) = none := by
  induction pairs with
  | nil => rfl
  | cons p rest ih =>
    obtain ⟨q, ov⟩ := p
    have htail : ∀ p ∈ rest, (p.1.fips, p.1.geoid) = k → p.2 = none :=
      fun p hp => habs p (List.mem_cons.mpr (Or.inr hp))
    cases hov : ov with
    | none => simpa only [stackPairs] using ih htail
    | some x =>
      simp only [stackPairs]
      rw [List.find?_cons_of_neg _ ?_]
      · exact ih htail
      · simp only [decide_eq_true_eq]
        intro heq
        have hqk : (q.fips, q.geoid) = k := by
          obtain ⟨k1, k2⟩ := k
          exact Prod.ext (congrArg (fun z => z.1) heq) (congrArg (fun z => z.2.1) heq)
        have := habs (q, ov) (List.mem_cons_self _ _) hqk
        rw [hov] at this
        cases this

theorem stackPairs_var_mem (dp : String) (pairs : List (GRow × Option ℚ)) :
    ∀ e ∈ stackPairs dp pairs, e.1.2.2 = dp := by
  induction pairs with
  | nil => intro e he; cases he
  | cons p rest ih =>
    obtain ⟨q, ov⟩ := p
    cases ov with
    | none => simpa only [stackPairs] using ih
    | some x =>
      intro e he
      simp only [stackPairs] at he
      rcases List.mem_cons.mp he with rfl | h2
      · rfl
      · exact ih e h2

theorem stackPairs_find_other (dp b : String) (hne : ¬ dp = b) (k : String × String)
    (pairs : List (GRow × Option ℚ)) :
    (stackPairs dp pairs).find? (fun e => decide (e.1 = (k.1, k.2, b))) = none := by
  rw [List.find?_eq_none]
  intro e he
  have hv := stackPairs_var_mem dp pairs e he
  simp only [decide_eq_true_eq]
  intro heq
  apply hne
  rw [← hv]
  exact congrArg (fun z => z.2.2) heq

/-- C2: per-variable zonal series for one date combine as an outer join on
the (FIPS, GEOID) key: a region present with a value in variable `a`'s
result and absent (or NaN, which `stack` drops) in variable `b`'s still
yields a row of the unstacked table, holding `a`'s value and NaN only in
`b`'s column — the row is never dropped. -/
theorem thm_C2_outer_join (gA gB : GDF) (a b : String) (k : String × String) (v : ℚ)
    (r0 : GRow) (hab : ¬ a = b)
    (hA : (gA.rows.zip (getCol gA a)).find?
        (fun p => decide ((p.1.fips, p.1.geoid) = k)) = some (r0, some v))
    (hB : ∀ p ∈ gB.rows.zip (getCol gB b), (p.1.fips, p.1.geoid) = k → p.2 = none) :
    k ∈ unstackKeys (concatSeries [seriesOfFrame gA a, seriesOfFrame gB b]) ∧
    unstackCell (concatSeries [seriesOfFrame gA a, seriesOfFrame gB b]) k a = some v ∧
    unstackCell (concatSeries [seriesOfFrame gA a, seriesOfFrame gB b]) k b = none := by
  have hces : concatSeries [seriesOfFrame gA a, seriesOfFrame gB b]
      = seriesOfFrame gA a ++ seriesOfFrame gB b := by
    simp [concatSeries]
  have hfA : (seriesOfFrame gA a).find? (fun e => decide (e.1 = (k.1, k.2, a)))
      = some ((k.1, k.2, a), v) := stackPairs_find_pos a k v _ r0 hA
  refine ⟨?_, ?_, ?_⟩
  · rw [hces]
    have hmem : ((k.1, k.2, a), v) ∈ seriesOfFrame gA a := List.mem_of_find?_eq_some hfA
    apply mem_pyUniq
    exact List.mem_map.mpr
      ⟨((k.1, k.2, a), v), List.mem_append.mpr (Or.inl hmem), rfl⟩
  · rw [hces]
    unfold unstackCell
    rw [List.find?_append, hfA]
    rfl
  · rw [hces]
    unfold unstackCell
    have ho : (seriesOfFrame gA a).find? (fun e => decide (e.1 = (k.1, k.2, b))) = none :=
      stackPairs_find_other a b hab k _
    have hn : (seriesOfFrame gB b).find? (fun e => decide (e.1 = (k.1, k.2, b))) = none :=
      stackPairs_find_none b k _ hB
    rw [List.find?_append, ho, hn]
    rfl

theorem wit_C2_outer_join :
    (("06037", "g06037")
      ∈ unstackKeys (concatSeries [seriesOfFrame wGdfA "tmax", seriesOfFrame wGdfB "ppt"])) ∧
    unstackCell (concatSeries [seriesOfFrame wGdfA "tmax", seriesOfFrame wGdfB "ppt"])
      ("06037", "g06037") "tmax" = some 3 ∧
    unstackCell (concatSeries [seriesOfFrame wGdfA "tmax", seriesOfFrame wGdfB "ppt"])
      ("06037", "g06037") "ppt" = none :=
  thm_C2_outer_join wGdfA wGdfB "tmax" "ppt" ("06037", "g06037") 3
    ⟨"06037", "g06037", Geom.poly 0⟩ (by decide) (by rfl) (by decide)

theorem process_prism_file_no_crash (mO : MaskFn) (rp : Nat → Nat) (f : RawFile)
    (shapefile : GDF) :
    (process_prism_file mO rp f shapefile).1 ≠ Except.error PErr.crash := by
  unfold process_prism_file
  cases reSearchPrism f.name with
  | none => simp
  | some dp =>
    cases read_prism_zip f.archive with
    | error e => simp
    | ok pr =>
      dsimp only
      split <;> simp

theorem runFiles_no_crash (mO : MaskFn) (rp : Nat → Nat) (shapefile : GDF)
    (files : List RawFile) :
    (runFiles mO rp shapefile files).1 ≠ Except.error PErr.crash := by
  induction files with
  | nil => simp [runFiles]
  | cons f rest ih =>
    rw [runFiles]
    rcases hpf : process_prism_file mO rp f shapefile with ⟨r, c⟩
    have hne := process_prism_file_no_crash mO rp f shapefile
    rw [hpf] at hne
    cases r with
    | error e => simpa using hne
    | ok s =>
      rcases hr2 : runFiles mO rp shapefile rest with ⟨r2, c2⟩
      rw [hr2] at ih
      cases r2 with
      | error e2 => simpa using ih
      | ok ss => simp

/-- C5 (amended): the checkpoint is persisted by one direct `to_parquet`
write to its final path, not by write-then-rename.  Any failure before the
write leaves durable storage completely untouched and surfaces as the single
reported failure for the date, but an interruption of the write itself
leaves a partial file at the final checkpoint name. -/
theorem thm_C5_direct_write (mO : MaskFn) (rp : Nat → Nat) (date : String) (shp : GeoFrame)
    (fs : FS) (crash : Bool) :
    ((process_prism_date mO rp date shp fs crash).2.1 = Except.error PErr.crash →
      (process_prism_date mO rp date shp fs crash).1.clean
        = fs.clean ++ [⟨"prism_" ++ date ++ ".parquet", false⟩]) ∧
    (∀ e, (process_prism_date mO rp date shp fs crash).2.1 = Except.error e →
      ¬ e = PErr.crash → (process_prism_date mO rp date shp fs crash).1 = fs) := by
  unfold process_prism_date
  by_cases hskip : fs.clean.any (fun e => endsWithCl e.name (date ++ ".parquet")) = true
  · rw [if_pos hskip]
    constructor
    · intro hcon
      cases hcon
    · intro e h1 h2
      cases h1
  · rw [if_neg hskip]
    rcases hrf : runFiles mO rp (read_shapefile_zip shp)
        (fs.raw.filter (fun f => endsWithCl f.name (date ++ ".zip"))) with ⟨r, c⟩
    have hnc := runFiles_no_crash mO rp (read_shapefile_zip shp)
        (fs.raw.filter (fun f => endsWithCl f.name (date ++ ".zip")))
    rw [hrf] at hnc
    simp only [hrf]
    cases r with
    | error e =>
      dsimp only
      dsimp only at hnc
      constructor
      · intro hcon
        have he := Except.error.inj hcon
        exact absurd (by rw [he] : Except.error e = Except.error PErr.crash) hnc
      · intro e2 h1 h2
        rfl
    | ok series =>
      cases series with
      | nil =>
        dsimp only
        constructor
        · intro hcon
          cases hcon
        · intro e2 h1 h2
          rfl
      | cons s0 srest =>
        cases crash with
        | true =>
          dsimp only
          constructor
          · intro _
            rfl
          · intro e2 h1 h2
            exfalso
            apply h2
            have := Except.error.inj h1
            exact this.symm
        | false =>
          dsimp only
          constructor
          · intro hcon
            cases hcon
          · intro e2 h1 h2
            cases h1

theorem wit_C5_direct_write :
    (process_prism_date wMaskTen id "20230101" wShp wFsC5 true).1.clean
      = wFsC5.clean ++ [⟨"prism_" ++ "20230101" ++ ".parquet", false⟩] :=
  (thm_C5_direct_write wMaskTen id "20230101" wShp wFsC5 true).1 rfl

/-- C5 counterexample: with one well-formed raw archive for the date and an
interruption during the checkpoint write, the date's unit fails, yet a
partially written file sits at the final checkpoint path, and a re-run takes
the partial file for a completed checkpoint and skips the date.  So a failure
during a date's processing can leave a partial checkpoint observable as
completed: persistence is not atomic. -/
theorem cex_C5_nonatomic :
    (process_prism_date wMaskTen id "20230101" wShp wFsC5 true).2.1
      = Except.error PErr.crash ∧
    (process_prism_date wMaskTen id "20230101" wShp wFsC5 true).1.clean
      = [⟨"prism_20230101.parquet", false⟩] ∧
    (process_prism_date wMaskTen id "20230101" wShp
        (process_prism_date wMaskTen id "20230101" wShp wFsC5 true).1 false).2.1
      = Except.ok DateResult.skipped :=
  ⟨rfl, rfl, rfl⟩

/-- C1 (code bug): with two dispatched dates of which the first raises the
archive-format error, the collection loop of `main` aborts with a TypeError
raised inside its own except handler (`futures[f]` indexes the futures list
with a Future), so no per-date outcome is reported for the remaining date —
even though that unaffected date's worker still writes its complete
checkpoint. -/
theorem thm_C1_orchestrator_halts :
    mainRun wMaskTen id wShp wFsC1 false [0, 1] = Except.error PyErr.typeError ∧
    (process_prism_date wMaskTen id "20230102" wShp wFsC1 false).1.clean
      = [⟨"prism_20230102.parquet", true⟩] :=
  ⟨rfl, rfl⟩

theorem sAt_le_of_true {cs pat : List Char} {i : Nat} (hpat : pat ≠ [])
    (h : sAt cs pat i = true) : i ≤ cs.length := by
  by_contra hi
  rw [Nat.not_le] at hi
  unfold sAt at h
  rw [List.drop_eq_nil_of_le (Nat.le_of_lt hi)] at h
  cases pat with
  | nil => exact hpat rfl
  | cons c cs2 => simp [List.isPrefixOf] at h

theorem matchAt_eq_none_iff (cs : List Char) (i : Nat) :
    matchAt cs i = none ↔
      (sAt cs prismPat i = false ∨
        ∀ k, ¬(sAt (cs.drop (i + 6)) usPat k = true ∧
          ((cs.drop (i + 6)).take k).contains '\n' = false)) := by
  unfold matchAt
  by_cases hp : sAt cs prismPat i
  · rw [if_pos hp]
    cases hl : (usCandidates (cs.drop (i + 6))).getLast? with
    | some k =>
      simp only
      constructor
      · intro hcon
        cases hcon
      · intro hor
        exfalso
        rcases hor with h1 | h2
        · rw [hp] at h1
          cases h1
        · have hmem := List.mem_of_getLast?_eq_some hl
          unfold usCandidates at hmem
          have hpred := (List.mem_filter.mp hmem).2
          apply h2 k
          refine ⟨((Bool.and_eq_true _ _).mp hpred).1, ?_⟩
          have hb := ((Bool.and_eq_true _ _).mp hpred).2
          simpa using hb
    | none =>
      have hnil : usCandidates (cs.drop (i + 6)) = [] := List.getLast?_eq_none_iff.mp hl
      simp only
      constructor
      · intro _
        right
        rintro k ⟨h1, h2⟩
        have hk : k ≤ (cs.drop (i + 6)).length := sAt_le_of_true (by simp [usPat]) h1
        have hkm : k ∈ usCandidates (cs.drop (i + 6)) := by
          unfold usCandidates
          apply List.mem_filter.mpr
          refine ⟨List.mem_range.mpr (Nat.lt_succ_of_le hk), ?_⟩
          rw [h1]
          simpa using h2
        rw [hnil] at hkm
        cases hkm
      · intro _
        trivial
  · rw [if_neg hp]
    constructor
    · intro _
      left
      simpa using hp
    · intro _
      trivial

theorem reSearchPrism_eq_none_iff (s : String) :
    reSearchPrism s = none ↔ ¬ hasPrismSegment s := by
  unfold reSearchPrism
  rw [List.head?_eq_none_iff, List.filterMap_eq_nil_iff]
  constructor
  · intro hall hseg
    obtain ⟨i, k, h1, h2, h3⟩ := hseg
    have hi : i ≤ s.data.length := sAt_le_of_true (by simp [prismPat]) h1
    have hm := hall i (List.mem_range.mpr (Nat.lt_succ_of_le hi))
    rw [matchAt_eq_none_iff] at hm
    rcases hm with hf | hforall
    · rw [h1] at hf
      cases hf
    · exact hforall k ⟨h2, h3⟩
  · intro hns i hi
    rw [matchAt_eq_none_iff]
    by_cases hp : sAt s.data prismPat i = true
    · right
      rintro k ⟨hk1, hk2⟩
      exact hns ⟨i, k, hp, hk1, hk2⟩
    · left
      simpa using hp

theorem reSearchPrism_some (s : String) (v : String) (h : reSearchPrism s = some v) :
    ∃ i k, sAt s.data prismPat i = true ∧ sAt (s.data.drop (i + 6)) usPat k = true ∧
      ((s.data.drop (i + 6)).take k).contains '\n' = false ∧
      v = String.mk ((s.data.drop (i + 6)).take k) := by
  unfold reSearchPrism at h
  have hv : v ∈ (List.range (s.data.length + 1)).filterMap (fun i => matchAt s.data i) := by
    cases hl : (List.range (s.data.length + 1)).filterMap (fun i => matchAt s.data i) with
    | nil =>
      rw [hl] at h
      cases h
    | cons x xs =>
      rw [hl] at h
      simp only [List.head?_cons, Option.some.injEq] at h
      rw [h]
      exact List.mem_cons_self _ _
  obtain ⟨i, hi, hmi⟩ := List.mem_filterMap.mp hv
  unfold matchAt at hmi
  by_cases hp : sAt s.data prismPat i
  · rw [if_pos hp] at hmi
    cases hl : (usCandidates (s.data.drop (i + 6))).getLast? with
    | none =>
      rw [hl] at hmi
      cases hmi
    | some k =>
      rw [hl] at hmi
      have hk := List.mem_of_getLast?_eq_some hl
      unfold usCandidates at hk
      have hk2 := (List.mem_filter.mp hk).2
      refine ⟨i, k, hp, ((Bool.and_eq_true _ _).mp hk2).1, ?_, ?_⟩
      · have := ((Bool.and_eq_true _ _).mp hk2).2
        simpa using this
      · exact (Option.some.inj hmi).symm
  · rw [if_neg hp] at hmi
    cases hmi

/-- C8 (amended): the variable resolver returns, verbatim (in the letter case
it appears in the filename), the token of the greedy `prism_(.*)_us` match —
a substring of the filename sitting between a `prism_` occurrence and a later
`_us` — and it returns `none` (on which `m.group(1)` raises, a hard failure,
never a default token) exactly when the filename has no such segment. -/
theorem thm_C8_verbatim_token (s : String) :
    (reSearchPrism s = none ↔ ¬ hasPrismSegment s) ∧
    (∀ v, reSearchPrism s = some v →
      ∃ i k, sAt s.data prismPat i = true ∧
        sAt (s.data.drop (i + 6)) usPat k = true ∧
        ((s.data.drop (i + 6)).take k).contains '\n' = false ∧
        v = String.mk ((s.data.drop (i + 6)).take k)) :=
  ⟨reSearchPrism_eq_none_iff s, fun v h => reSearchPrism_some s v h⟩

theorem wit_C8_verbatim_token :
    ∃ i k, sAt "prism_ppt_us_x.zip".data prismPat i = true ∧
      sAt ("prism_ppt_us_x.zip".data.drop (i + 6)) usPat k = true ∧
      (("prism_ppt_us_x.zip".data.drop (i + 6)).take k).contains '\n' = false ∧
      "ppt" = String.mk (("prism_ppt_us_x.zip".data.drop (i + 6)).take k) :=
  (thm_C8_verbatim_token "prism_ppt_us_x.zip").2 "ppt" rfl

/-- C8 counterexample: on the filename `prism_TMAX_us_x.zip` the resolver
returns the token `TMAX` exactly as it appears, which is not a lowercase
string — the resolver performs no case normalization. -/
theorem cex_C8_not_lowercase :
    reSearchPrism "prism_TMAX_us_x.zip" = some "TMAX" ∧
    ¬ pyLower "TMAX" = "TMAX" := by
  constructor
  · rfl
  · decide

theorem wit_C10_no_mutation :
    (zonal_average_store wMaskMean id [] wProfile wStore 0 "tmax").1[0]? = wStore[0]? ∧
    (zonal_average_store wMaskMean id [] wProfile wStore 0 "tmax").2 ≠ 0 :=
  ⟨(thm_C10_no_mutation wMaskMean id [] wProfile wStore 0 "tmax" (by decide)).1,
   (thm_C10_no_mutation wMaskMean id [] wProfile wStore 0 "tmax" (by decide)).2.1⟩
